import Mathlib

/-!
Verification of the inventory / invoice-management web application.

The development shallowly embeds the application's core logic:

* `Rx` — a small backtracking regular-expression engine mirroring the
  JavaScript `String.prototype.match` semantics (leftmost match, greedy and
  lazy quantifiers tried in JS backtracking order) for the concrete
  patterns used by the invoice text extractor.
* `Extract` — the invoice text extractor (`InvoicePDFParser.extractItems`,
  `InvoicePDFParser.formatDateToISO`) and the AI parser's internal fallback
  (`AIInvoiceParser.fallbackParsing`, `AIInvoiceParser.extractItems`).
  JavaScript numbers are modelled as exact rationals; the claims under
  consideration are robust to that choice (they are count / large-gap /
  integer-valued statements).
* `Store` — the relational store rows, the SQL triggers
  `update_product_stock` / `update_product_price_from_purchase`
  (supabase/migrations), and the application handlers
  `handleConfirmInvoice`, `confirmDeleteInvoice`, `handleCreateSale`,
  `handleStartInventory`, `handleCompleteInventory`, `handleUpdateCount`.
  Row ids (uuids in the source) are modelled as naturals drawn from a
  fresh-id counter; timestamp columns (`created_at` etc.) are omitted as no
  claim mentions them.
-/

namespace Rx

/-- Regular-expression abstract syntax, restricted to the constructs used by
the invoice parser's patterns: character classes, literals, sequencing,
alternation, greedy option, greedy and lazy one-or-more over a character
class, and (flat) capturing groups. -/
inductive RE where
  | emp : RE
  | cls (p : Char → Bool) : RE
  | lit (cs : List Char) : RE
  | seqR (a b : RE) : RE
  | altR (a b : RE) : RE
  | optR (a : RE) : RE
  | plusG (p : Char → Bool) : RE
  | plusL (p : Char → Bool) : RE
  | grp (a : RE) : RE

/-- Greedy zero-or-more repetition of a character class, in continuation
style: try to consume another matching character first, fall back to the
continuation (JS greedy backtracking order). -/
def starG (p : Char → Bool) : List Char → List String →
    (List Char → List String → Option (List String)) → Option (List String)
  | [], gs, k => k [] gs
  | c :: r, gs, k =>
    if p c then (starG p r gs k) <|> k (c :: r) gs else k (c :: r) gs

/-- Lazy zero-or-more repetition of a character class: try the continuation
first, consume another matching character only on failure (JS lazy
backtracking order). -/
def starL (p : Char → Bool) : List Char → List String →
    (List Char → List String → Option (List String)) → Option (List String)
  | [], gs, k => k [] gs
  | c :: r, gs, k =>
    if p c then k (c :: r) gs <|> starL p r gs k else k (c :: r) gs

/-- Backtracking matcher in continuation-passing style.  `mat re s gs k`
tries to match `re` against a prefix of `s` with captured groups `gs`
accumulated so far, and calls `k` with the remaining input and extended
group list on success.  Alternatives are explored in JS order (left branch
of `|` first, greedy quantifiers longest-first, lazy shortest-first), so the
first solution found agrees with the JS regex engine on the patterns used
here.  Groups in the embedded patterns are flat (never nested), so
appending each group's text when it completes reproduces the JS numbering
by opening parenthesis. -/
def mat : RE → List Char → List String →
    (List Char → List String → Option (List String)) → Option (List String)
  | .emp, s, gs, k => k s gs
  | .cls p, s, gs, k =>
    match s with
    | [] => none
    | c :: r => if p c then k r gs else none
  | .lit cs, s, gs, k => if cs.isPrefixOf s then k (s.drop cs.length) gs else none
  | .seqR a b, s, gs, k => mat a s gs (fun s1 g1 => mat b s1 g1 k)
  | .altR a b, s, gs, k => (mat a s gs k) <|> (mat b s gs k)
  | .optR a, s, gs, k => (mat a s gs k) <|> k s gs
  | .plusG p, s, gs, k =>
    match s with
    | [] => none
    | c :: r => if p c then starG p r gs k else none
  | .plusL p, s, gs, k =>
    match s with
    | [] => none
    | c :: r => if p c then starL p r gs k else none
  | .grp a, s, gs, k =>
    mat a s gs (fun s1 g1 => k s1 (g1 ++ [String.mk (s.take (s.length - s1.length))]))

/-- Attempt a match anchored at the current position; like JS, the match
need not consume the whole remaining input. -/
def matchHere (re : RE) (s : List Char) : Option (List String) :=
  mat re s [] (fun _ gs => some gs)

/-- Scan for the leftmost match position, as `String.prototype.match` does
for a non-global regex. -/
def searchFrom (re : RE) : List Char → Option (List String)
  | [] => matchHere re []
  | c :: r => (matchHere re (c :: r)) <|> searchFrom re r

/-- `jsMatchGroups re s` returns the captured groups of the leftmost match
of `re` in `s` (the counterpart of `s.match(re)` minus the index-0 full
match, which the extractor's destructuring skips). -/
def jsMatchGroups (re : RE) (s : String) : Option (List String) :=
  searchFrom re s.toList

end Rx

namespace Extract

/-- Splitting on a separator character, matching JS `String.prototype.split`
with a single-character separator (empty pieces are kept). -/
def splitOnC (sep : Char) : List Char → List (List Char)
  | [] => [[]]
  | c :: r =>
    if c = sep then [] :: splitOnC sep r
    else
      match splitOnC sep r with
      | h :: t => (c :: h) :: t
      | [] => [[c]]

/-- JS `.` character class (anything except a line terminator). -/
def isDotC (c : Char) : Bool :=
  !(c = '\n' || c = '\r' || c = ' ' || c = ' ')

/-- JS `\s` on the characters that can occur in the extractor's inputs. -/
def isWsC (c : Char) : Bool :=
  c = ' ' || c = '\t' || c = '\n' || c = '\r' || c = '\x0b' || c = '\x0c' ||
  c = ' ' || c = '﻿' || c = ' ' || c = ' '

/-- JS `String.prototype.trim` (drop leading and trailing whitespace). -/
def jsTrimL (cs : List Char) : List Char :=
  ((cs.dropWhile isWsC).reverse.dropWhile isWsC).reverse

/-- `jsTrimL` packaged on strings. -/
def jsTrim (s : String) : String := String.mk (jsTrimL s.toList)

/-- JS `[0-9]`. -/
def isDigitC (c : Char) : Bool := c.isDigit

/-- Capturing number token `([0-9]+(?:[.,][0-9]+)?)`. -/
def numG : Rx.RE :=
  .grp (.seqR (.plusG isDigitC)
    (.optR (.seqR (.cls (fun c => c = '.' || c = ',')) (.plusG isDigitC))))

/-- Non-capturing `\s+`. -/
def wsP : Rx.RE := .plusG isWsC

/-- Capturing unit token `(szt|kg|m|l|godz)`, alternatives in source order. -/
def unitG : Rx.RE :=
  .grp (.altR (.lit "szt".toList) (.altR (.lit "kg".toList)
    (.altR (.lit "m".toList) (.altR (.lit "l".toList) (.lit "godz".toList)))))

/-- First item pattern of `InvoicePDFParser.extractItems`:
`/(.+?)\s+([0-9]+(?:[.,][0-9]+)?)\s+(szt|kg|m|l|godz)\s+([0-9]+(?:[.,][0-9]+)?)\s+([0-9]+)%\s+([0-9]+(?:[.,][0-9]+)?)/`. -/
def itemShape1 : Rx.RE :=
  .seqR (.grp (.plusL isDotC)) (.seqR wsP (.seqR numG (.seqR wsP (.seqR unitG
    (.seqR wsP (.seqR numG (.seqR wsP (.seqR (.grp (.plusG isDigitC))
      (.seqR (.lit ['%']) (.seqR wsP numG))))))))))

/-- Second item pattern of `InvoicePDFParser.extractItems`:
`/(.+?)\s+([0-9]+(?:[.,][0-9]+)?)\s+([0-9]+(?:[.,][0-9]+)?)\s+([0-9]+(?:[.,][0-9]+)?)/`. -/
def itemShape2 : Rx.RE :=
  .seqR (.grp (.plusL isDotC)) (.seqR wsP (.seqR numG (.seqR wsP
    (.seqR numG (.seqR wsP numG)))))

/-- The ordered pattern list of the extractor's inner loop. -/
def itemShapes : List Rx.RE := [itemShape1, itemShape2]

/-- Numeric value of a digit string. -/
def digitsToNat (cs : List Char) : Nat :=
  cs.foldl (fun n c => 10 * n + (c.toNat - 48)) 0

/-- JS `parseFloat` on the number tokens produced by the item patterns
(`[0-9]+` optionally followed by `.` and `[0-9]+` after comma
normalisation).  On inputs outside that shape — which the extractor never
produces — it returns the value of the leading digits (0 if none). -/
def jsParseFloat (s : String) : Rat :=
  let cs := s.toList
  let intDigits := cs.takeWhile isDigitC
  let rest := cs.drop intDigits.length
  match rest with
  | '.' :: r =>
    let fracDigits := r.takeWhile isDigitC
    (digitsToNat intDigits : Rat) +
      (digitsToNat fracDigits : Rat) / ((10 : Rat) ^ fracDigits.length)
  | _ => (digitsToNat intDigits : Rat)

/-- JS `parseInt`: the integer value of the leading digits, `none` (NaN)
when there is no leading digit.  The sign prefix is never present in the
parser's inputs and is not modelled. -/
def jsParseIntStr (s : String) : Option Int :=
  let ds := s.toList.takeWhile isDigitC
  if ds.isEmpty then none else some (digitsToNat ds)

/-- JS `str.replace(',', '.')` (first occurrence only; the number tokens
contain at most one comma). -/
def replaceFirstComma : List Char → List Char
  | [] => []
  | c :: r => if c = ',' then '.' :: r else c :: replaceFirstComma r

/-- A parsed invoice line item (`Omit<InvoiceItem, 'id'>` of the TS model). -/
structure ParsedItem where
  name : String
  quantity : Rat
  unit : String
  percentage : Rat
  net_price : Rat
  gross_price : Rat
  total_net : Rat
  total_gross : Rat
deriving DecidableEq

/-- The canonical `ParsedInvoiceData` shape. -/
structure ParsedInvoiceData where
  invoiceNumber : String
  date : String
  vendor : String
  items : List ParsedItem
  totalNet : Rat
  totalGross : Rat
deriving DecidableEq

/-- The item built from a successful match's groups, mirroring the
destructuring
`const [, name, quantity, unit, netPrice, percentage, grossPrice] = match`
(missing groups are `undefined`, i.e. `none`) and the subsequent field
computations of `InvoicePDFParser.extractItems`. -/
def buildItem (gs : List String) : ParsedItem :=
  let name := jsTrim ((gs.get? 0).getD "")
  let qty := jsParseFloat (String.mk (replaceFirstComma ((gs.get? 1).getD "").toList))
  let unitS := (gs.get? 2).getD ""
  let net := jsParseFloat (String.mk (replaceFirstComma ((gs.get? 3).getD "").toList))
  let percent : Rat :=
    match gs.get? 4 with
    | some s => if s.isEmpty then 23 else (((jsParseIntStr s).getD 0 : Int) : Rat)
    | none => 23
  let gross : Rat :=
    match gs.get? 5 with
    | some s =>
      if s.isEmpty then net * (1 + percent / 100)
      else jsParseFloat (String.mk (replaceFirstComma s.toList))
    | none => net * (1 + percent / 100)
  { name := name
    quantity := qty
    unit := if unitS.isEmpty then "szt" else unitS
    percentage := percent
    net_price := net
    gross_price := gross
    total_net := qty * net
    total_gross := qty * gross }

/-- The items contributed by one (already trimmed) text line: the inner
`for (const pattern of patterns)` loop of `InvoicePDFParser.extractItems`,
which pushes one item per *matching* pattern — the loop body has no
`break`, so both patterns are always attempted. -/
def lineItems (line : String) : List ParsedItem :=
  itemShapes.foldl (fun acc pat =>
    match Rx.jsMatchGroups pat line with
    | some gs => acc ++ [buildItem gs]
    | none => acc) []

/-- The hard-coded placeholder item pushed when no line matched. -/
def placeholderItem : ParsedItem :=
  { name := "Extracted item from PDF", quantity := 1, unit := "szt"
    percentage := 23, net_price := 100, gross_price := 123
    total_net := 100, total_gross := 123 }

/-- `InvoicePDFParser.extractItems`: split the text into lines, trim each,
collect the items of every matching pattern, and fall back to the single
placeholder item when nothing matched. -/
def extractItems (text : String) : List ParsedItem :=
  let items := (splitOnC '\n' text.toList).foldl
    (fun acc l => acc ++ lineItems (String.mk (jsTrimL l))) []
  if items.isEmpty then [placeholderItem] else items

/-- `items.reduce((sum, item) => sum + item.total_net, 0)`. -/
def sumTotalNet (items : List ParsedItem) : Rat :=
  items.foldl (fun s it => s + it.total_net) 0

/-- `items.reduce((sum, item) => sum + item.total_gross, 0)`. -/
def sumTotalGross (items : List ParsedItem) : Rat :=
  items.foldl (fun s it => s + it.total_gross) 0

/-- The fallback branch of `InvoicePDFParser.parsePDF` (its `catch` arm):
items come from `extractItems` and the invoice totals are computed as the
sums of the item totals.  The header extractors
(`extractInvoiceNumber`, `extractDate`, `extractVendor`) do not influence
items or totals and depend on the ambient current date, so their results
are taken as parameters. -/
def pdfParserFallback (invoiceNumber date vendor : String) (text : String) :
    ParsedInvoiceData :=
  let items := extractItems text
  { invoiceNumber := invoiceNumber, date := date, vendor := vendor
    items := items
    totalNet := sumTotalNet items
    totalGross := sumTotalGross items }

/-- `AIInvoiceParser.extractItems`: a constant single-item list, identical
in content to the placeholder item. -/
def aiExtractItems : List ParsedItem := [placeholderItem]

/-- `AIInvoiceParser.fallbackParsing`, the branch actually taken whenever
the AI call or response parsing fails: items from `AIInvoiceParser.extractItems`
but `totalNet: 0, totalGross: 0` hard-coded.  As in `pdfParserFallback`,
the totals-irrelevant header extractors are parameters. -/
def aiFallbackParsing (invoiceNumber date vendor : String) : ParsedInvoiceData :=
  { invoiceNumber := invoiceNumber, date := date, vendor := vendor
    items := aiExtractItems
    totalNet := 0
    totalGross := 0 }

end Extract

namespace Extract

/-- Days since 1970-01-01 of a Gregorian calendar date (proleptic), the
standard civil-calendar day-count algorithm. -/
def daysFromCivil (y m d : Int) : Int :=
  let y1 := y - (if m ≤ 2 then 1 else 0)
  let era := Int.fdiv y1 400
  let yoe := y1 - era * 400
  let mp := Int.fdiv (153 * (m + (if m > 2 then -3 else 9)) + 2) 5
  let doy := mp + d - 1
  let doe := yoe * 365 + Int.fdiv yoe 4 - Int.fdiv yoe 100 + doy
  era * 146097 + doe - 719468

/-- Inverse of `daysFromCivil`: year, month (1–12) and day of a day count. -/
def civilFromDays (z0 : Int) : Int × Int × Int :=
  let z := z0 + 719468
  let era := Int.fdiv z 146097
  let doe := z - era * 146097
  let yoe := Int.fdiv (doe - Int.fdiv doe 1460 + Int.fdiv doe 36524 - Int.fdiv doe 146096) 365
  let y := yoe + era * 400
  let doy := doe - (365 * yoe + Int.fdiv yoe 4 - Int.fdiv yoe 100)
  let mp := Int.fdiv (5 * doy + 2) 153
  let d := doy - Int.fdiv (153 * mp + 2) 5 + 1
  let m := mp + (if mp < 10 then 3 else -9)
  (y + (if m ≤ 2 then 1 else 0), m, d)

/-- Semantics of the JS `new Date(year, monthIndex, day)` constructor as
read back through `getFullYear` / `getMonth` / `getDate`: years 0–99 map to
1900+year, the month index rolls over into the year, and day overflow rolls
over into subsequent months (so February 31 becomes March 2 or 3). -/
def jsDateNormalize (y monthIndex d : Int) : Int × Int × Int :=
  let yr := if 0 ≤ y && y ≤ 99 then y + 1900 else y
  let ym := yr + Int.fdiv monthIndex 12
  let mn := Int.emod monthIndex 12
  let r := civilFromDays (daysFromCivil ym (mn + 1) 1 + (d - 1))
  (r.1, r.2.1 - 1, r.2.2)

/-- JS `str.padStart(2, '0')`. -/
def padStart2 (s : List Char) : List Char :=
  if s.length ≥ 2 then s else List.replicate (2 - s.length) '0' ++ s

/-- The global replace `dateStr.replace(/[.\-\/]/g, '/')`, character-wise. -/
def sepToSlash (c : Char) : Char :=
  if c = '.' || c = '-' || c = '/' then '/' else c

/-- `InvoicePDFParser.formatDateToISO`.  `today` stands for
`new Date().toISOString().split('T')[0]`, the ambient current date used on
every failure path.  A `parseInt` that yields NaN makes every JS `!=`
comparison against it true, hence the `today` fallback in the `none`
case. -/
def formatDateToISO (today : String) (dateStr : String) : String :=
  let cleanDate := dateStr.toList.map sepToSlash
  let parts := splitOnC '/' cleanDate
  match parts with
  | [a, b, c] =>
    let day := String.mk (if a.length = 4 then padStart2 c else padStart2 a)
    let month := String.mk (padStart2 b)
    let year := String.mk (if a.length = 4 then a else c)
    match jsParseIntStr year, jsParseIntStr month, jsParseIntStr day with
    | some yv, some mv, some dv =>
      let r := jsDateNormalize yv (mv - 1) dv
      if r.1 ≠ yv || r.2.1 ≠ mv - 1 || r.2.2 ≠ dv then today
      else year ++ "-" ++ month ++ "-" ++ day
    | _, _, _ => today
  | _ => today

end Extract

namespace Store

/-- `movement_type` enum of the `stock_movements` table. -/
inductive MType where
  | purchase | sale | adjustment | inventory
deriving DecidableEq

/-- `reference_type` enum of the `stock_movements` table. -/
inductive RType where
  | invoice_item | inventory | manual | sale_item
deriving DecidableEq

/-- `status` enum of the `inventories` table. -/
inductive InvStatus where
  | draft | in_progress | completed
deriving DecidableEq

/-- A `products` row.  `last_purchase_price` is nullable in the schema
(it has a default but no NOT NULL constraint), hence `Option`. -/
structure Product where
  id : Nat
  name : String
  unit : String
  current_stock : Rat
  min_stock_level : Rat
  last_purchase_price : Option Rat
deriving DecidableEq

/-- A `stock_movements` row. -/
structure StockMovement where
  id : Nat
  product_id : Nat
  movement_type : MType
  quantity : Rat
  reference_id : Option Nat
  reference_type : Option RType
  notes : String
deriving DecidableEq

/-- An `invoices` row. -/
structure InvoiceRow where
  id : Nat
  filename : String
  invoice_number : String
  date : String
  vendor : String
  total_net : Rat
  total_gross : Rat
deriving DecidableEq

/-- An `invoice_items` row. -/
structure InvoiceItemRow where
  id : Nat
  invoice_id : Nat
  name : String
  quantity : Rat
  unit : String
  percentage : Rat
  net_price : Rat
  gross_price : Rat
  total_net : Rat
  total_gross : Rat
deriving DecidableEq

/-- An `inventories` row. -/
structure InventoryRow where
  id : Nat
  name : String
  status : InvStatus
  completed_at : Option String
deriving DecidableEq

/-- An `inventory_items` row.  The `difference` column is GENERATED ALWAYS
AS `counted_quantity - expected_quantity` and therefore not stored. -/
structure InventoryItemRow where
  id : Nat
  inventory_id : Nat
  product_id : Nat
  expected_quantity : Rat
  counted_quantity : Option Rat
  notes : String
deriving DecidableEq

/-- A `sales` row. -/
structure SaleRow where
  id : Nat
  sale_number : String
  date : String
  customer : String
  total_amount : Rat
deriving DecidableEq

/-- A `sale_items` row. -/
structure SaleItemRow where
  id : Nat
  sale_id : Nat
  product_id : Nat
  quantity : Rat
  unit_price : Rat
  total_price : Rat
deriving DecidableEq

/-- The row store.  `nextId` models the uuid generator: every generated id
is fresh with respect to a store whose existing ids are below `nextId`. -/
structure DB where
  nextId : Nat
  products : List Product
  stock_movements : List StockMovement
  invoices : List InvoiceRow
  invoice_items : List InvoiceItemRow
  inventories : List InventoryRow
  inventory_items : List InventoryItemRow
  sales : List SaleRow
  sale_items : List SaleItemRow
deriving DecidableEq

/-- The empty store. -/
def emptyDB : DB := ⟨0, [], [], [], [], [], [], [], []⟩

/-- Draw a fresh row id. -/
def genId (db : DB) : Nat × DB := (db.nextId, { db with nextId := db.nextId + 1 })

/-- Build one row per input element, assigning consecutive generated ids
starting at `n` (the store generates one uuid per row of a batch insert). -/
def withIds {α β : Type} (mk : Nat → α → β) : Nat → List α → List β
  | _, [] => []
  | n, x :: xs => mk n x :: withIds mk (n + 1) xs

/-- The generated `difference` column: `counted_quantity - expected_quantity`,
NULL while `counted_quantity` is NULL. -/
def diffOf (it : InventoryItemRow) : Option Rat :=
  it.counted_quantity.map (fun c => c - it.expected_quantity)

/-- The numeric value of a non-NULL `difference`. -/
def diffVal (it : InventoryItemRow) : Rat := (diffOf it).getD 0

/-- `update_product_stock`, INSERT branch:
`UPDATE products SET current_stock = current_stock + NEW.quantity WHERE id = NEW.product_id`. -/
def stockTriggerInsert (m : StockMovement) (ps : List Product) : List Product :=
  ps.map (fun p =>
    if p.id = m.product_id then { p with current_stock := p.current_stock + m.quantity } else p)

/-- `update_product_stock`, DELETE branch:
`UPDATE products SET current_stock = current_stock - OLD.quantity WHERE id = OLD.product_id`. -/
def stockTriggerDelete (m : StockMovement) (ps : List Product) : List Product :=
  ps.map (fun p =>
    if p.id = m.product_id then { p with current_stock := p.current_stock - m.quantity } else p)

/-- `update_product_stock`, UPDATE branch:
`UPDATE products SET current_stock = current_stock - OLD.quantity + NEW.quantity WHERE id = NEW.product_id`. -/
def stockTriggerUpdate (oldm newm : StockMovement) (ps : List Product) : List Product :=
  ps.map (fun p =>
    if p.id = newm.product_id then
      { p with current_stock := p.current_stock - oldm.quantity + newm.quantity }
    else p)

/-- `update_product_price_from_purchase` (AFTER INSERT): when the new
movement is a purchase referencing an invoice item, overwrite the product's
`last_purchase_price` with the scalar subquery
`SELECT ii.net_price FROM invoice_items ii WHERE ii.id = NEW.reference_id`
(NULL when no row matches). -/
def priceTriggerApply (iis : List InvoiceItemRow) (m : StockMovement)
    (ps : List Product) : List Product :=
  if m.movement_type = MType.purchase ∧ m.reference_type = some RType.invoice_item then
    let price := (iis.find? (fun ii => some ii.id = m.reference_id)).map (fun ii => ii.net_price)
    ps.map (fun p =>
      if p.id = m.product_id then { p with last_purchase_price := price } else p)
  else ps

/-- Insert one `stock_movements` row; both AFTER INSERT row triggers fire
(`trigger_update_product_price` before `trigger_update_product_stock`, the
Postgres alphabetical firing order — they touch disjoint columns). -/
def insertStockMovement (db : DB) (m : StockMovement) : DB :=
  { db with
    stock_movements := db.stock_movements ++ [m]
    products := stockTriggerInsert m (priceTriggerApply db.invoice_items m db.products) }

/-- Delete the `stock_movements` rows with the given id; the DELETE trigger
fires once per removed row. -/
def deleteStockMovement (db : DB) (i : Nat) : DB :=
  let removed := db.stock_movements.filter (fun m => m.id = i)
  { db with
    stock_movements := db.stock_movements.filter (fun m => ¬ m.id = i)
    products := removed.foldl (fun ps m => stockTriggerDelete m ps) db.products }

/-- Update the quantity of the `stock_movements` rows with the given id;
the UPDATE trigger fires once per updated row with the old and new row. -/
def updateStockMovementQty (db : DB) (i : Nat) (q : Rat) : DB :=
  let matched := db.stock_movements.filter (fun m => m.id = i)
  { db with
    stock_movements := db.stock_movements.map (fun m => if m.id = i then { m with quantity := q } else m)
    products := matched.foldl (fun ps m => stockTriggerUpdate m { m with quantity := q } ps) db.products }

/-- A raw ledger operation, as in the spec's §4.4: insert a movement row,
delete by id, or update a movement's quantity by id. -/
inductive LedgerOp where
  | insert (m : StockMovement)
  | delete (i : Nat)
  | update (i : Nat) (q : Rat)

/-- Apply one ledger operation (the trigger runs with it). -/
def applyLedgerOp (db : DB) : LedgerOp → DB
  | .insert m => insertStockMovement db m
  | .delete i => deleteStockMovement db i
  | .update i q => updateStockMovementQty db i q

/-- Apply a sequence of ledger operations. -/
def applyLedgerOps (db : DB) (ops : List LedgerOp) : DB :=
  ops.foldl applyLedgerOp db

/-- Signed sum of the quantities of the ledger movements of one product. -/
def sumQtyFor (ms : List StockMovement) (pid : Nat) : Rat :=
  ((ms.filter (fun m => m.product_id = pid)).map (fun m => m.quantity)).sum

/-- The ledger invariant: every product's materialized `current_stock`
equals the signed sum of its movements currently in the ledger. -/
def LedgerInv (db : DB) : Prop :=
  ∀ p ∈ db.products, p.current_stock = sumQtyFor db.stock_movements p.id

instance (db : DB) : Decidable (LedgerInv db) := by
  unfold LedgerInv; infer_instance

end Store

namespace Store

open Extract (ParsedItem ParsedInvoiceData)

/-- The `products` row inserted by `handleConfirmInvoice` for an unseen
line-item name: stock 0, min level 0, unit from the line, and
`last_purchase_price` initialised to the line's net price. -/
def newProductRow (pid : Nat) (it : ParsedItem) : Product :=
  { id := pid, name := it.name, unit := it.unit, current_stock := 0
    min_stock_level := 0, last_purchase_price := some it.net_price }

/-- The per-line-item body of `handleConfirmInvoice`'s product/movement
loop: look the product up by exact name, create it if absent, then insert
one purchase movement whose `reference_id` is — as in the source — the
*invoice's* id (`reference_id: invoice.id`) with `reference_type`
`'invoice_item'`. -/
def confirmItemStep (invId : Nat) (invoiceNumber : String) (acc : DB) (it : ParsedItem) : DB :=
  let found := acc.products.find? (fun p => p.name = it.name)
  let pidAcc :=
    match found with
    | some p => (p.id, acc)
    | none =>
      let (npid, accA) := genId acc
      (npid, { accA with products := accA.products ++ [newProductRow npid it] })
  let (mid, acc2) := genId pidAcc.2
  insertStockMovement acc2
    { id := mid, product_id := pidAcc.1, movement_type := MType.purchase
      quantity := it.quantity, reference_id := some invId
      reference_type := some RType.invoice_item
      notes := "Zakup z faktury " ++ invoiceNumber }

/-- `handleConfirmInvoice`: insert the `invoices` row, batch-insert its
`invoice_items` rows, then run the product-upsert + purchase-movement loop
over the parsed items. -/
def handleConfirmInvoice (db : DB) (d : ParsedInvoiceData) : DB :=
  let (invId, db1) := genId db
  let invRow : InvoiceRow :=
    { id := invId, filename := "uploaded.pdf", invoice_number := d.invoiceNumber
      date := d.date, vendor := d.vendor
      total_net := d.totalNet, total_gross := d.totalGross }
  let db2 := { db1 with invoices := db1.invoices ++ [invRow] }
  let itemRows := withIds (fun rid it =>
    ({ id := rid, invoice_id := invId, name := it.name
       quantity := it.quantity, unit := it.unit, percentage := it.percentage
       net_price := it.net_price, gross_price := it.gross_price
       total_net := it.total_net, total_gross := it.total_gross } : InvoiceItemRow))
    db2.nextId d.items
  let db3 := { db2 with invoice_items := db2.invoice_items ++ itemRows
                        nextId := db2.nextId + itemRows.length }
  d.items.foldl (confirmItemStep invId d.invoiceNumber) db3

/-- `confirmDeleteInvoice`: delete the invoice's `invoice_items` rows, then
the `invoices` row.  Nothing touches `stock_movements` (their
`reference_id` column has no foreign key, so no cascade reaches them, and
no trigger fires on these deletes). -/
def confirmDeleteInvoice (db : DB) (invId : Nat) : DB :=
  let db1 := { db with invoice_items := db.invoice_items.filter (fun ii => ¬ ii.invoice_id = invId) }
  { db1 with invoices := db1.invoices.filter (fun i => ¬ i.id = invId) }

/-- One requested sale line of `CreateSaleData`. -/
structure CreateSaleItem where
  product_id : Nat
  quantity : Rat
  unit_price : Rat
deriving DecidableEq

/-- `CreateSaleData`. -/
structure CreateSaleData where
  sale_number : String
  date : String
  customer : String
  items : List CreateSaleItem
deriving DecidableEq

/-- `handleCreateSale`: insert the `sales` row with the computed total,
batch-insert the `sale_items` rows (positive quantities), then batch-insert
one `sale` movement per item with `quantity: -item.quantity` — the single
point where the sign is inverted. -/
def handleCreateSale (db : DB) (sd : CreateSaleData) : DB :=
  let totalAmount := sd.items.foldl (fun s it => s + it.quantity * it.unit_price) 0
  let (sid, db1) := genId db
  let saleRow : SaleRow :=
    { id := sid, sale_number := sd.sale_number, date := sd.date
      customer := sd.customer, total_amount := totalAmount }
  let db2 := { db1 with sales := db1.sales ++ [saleRow] }
  let saleItemRows := withIds (fun rid it =>
    ({ id := rid, sale_id := sid, product_id := it.product_id
       quantity := it.quantity, unit_price := it.unit_price
       total_price := it.quantity * it.unit_price } : SaleItemRow))
    db2.nextId sd.items
  let db3 := { db2 with sale_items := db2.sale_items ++ saleItemRows
                        nextId := db2.nextId + saleItemRows.length }
  let movements := withIds (fun rid si =>
    ({ id := rid, product_id := si.product_id
       movement_type := MType.sale, quantity := -si.quantity
       reference_id := some si.sale_id, reference_type := some RType.sale_item
       notes := "Sprzedaż " ++ sd.sale_number } : StockMovement))
    db3.nextId saleItemRows
  let db4 := { db3 with nextId := db3.nextId + movements.length }
  movements.foldl insertStockMovement db4

/-- `handleStartInventory`: set the inventory's status to `in_progress`. -/
def handleStartInventory (db : DB) (invId : Nat) : DB :=
  { db with inventories := db.inventories.map (fun i =>
      if i.id = invId then { i with status := InvStatus.in_progress } else i) }

/-- `handleUpdateCount`: set an inventory item's `counted_quantity`. -/
def handleUpdateCount (db : DB) (itemId : Nat) (q : Rat) : DB :=
  { db with inventory_items := db.inventory_items.map (fun it =>
      if it.id = itemId then { it with counted_quantity := some q } else it) }

/-- `handleCompleteInventory`: mark the inventory completed (setting
`completed_at` to the ambient current time `now`), select its items whose
generated `difference` is not NULL, keep those with `difference !== 0`, and
batch-insert one `inventory` movement per kept item with
`quantity = difference`, `reference_id = inventory.id` and a
surplus/shortfall note. -/
def handleCompleteInventory (db : DB) (invId : Nat) (now : String) : DB :=
  let db1 : DB := { db with inventories := db.inventories.map (fun i =>
      if i.id = invId then { i with status := InvStatus.completed, completed_at := some now } else i) }
  let items := db1.inventory_items.filter (fun it =>
    decide (it.inventory_id = invId) && (diffOf it).isSome)
  let kept := items.filter (fun it => !(decide (diffVal it = 0)))
  let movements := withIds (fun rid it =>
    ({ id := rid, product_id := it.product_id
       movement_type := MType.inventory, quantity := diffVal it
       reference_id := some invId, reference_type := some RType.inventory
       notes := if diffVal it > 0 then "Korekta inwentaryzacyjna: nadwyżka"
                else "Korekta inwentaryzacyjna: niedobór" } : StockMovement))
    db1.nextId kept
  let db2 := { db1 with nextId := db1.nextId + movements.length }
  movements.foldl insertStockMovement db2

/-- The user-dispatchable inventory-workflow actions. -/
inductive UIAction where
  | start (invId : Nat)
  | complete (invId : Nat) (now : String)
  | count (itemId : Nat) (q : Rat)

/-- The inventory workflow as the UI exposes it: an action can fire only
when the component renders its control — the start button only on a
`draft` inventory, the complete button only on an `in_progress` inventory,
and the count editor (`canEdit`) only inside an `in_progress` inventory's
modal.  The effect of each action is the corresponding handler. -/
inductive UIStep : DB → UIAction → DB → Prop where
  | start (db : DB) (inv : InventoryRow) :
      inv ∈ db.inventories → inv.status = InvStatus.draft →
      UIStep db (.start inv.id) (handleStartInventory db inv.id)
  | complete (db : DB) (inv : InventoryRow) (now : String) :
      inv ∈ db.inventories → inv.status = InvStatus.in_progress →
      UIStep db (.complete inv.id now) (handleCompleteInventory db inv.id now)
  | count (db : DB) (it : InventoryItemRow) (inv : InventoryRow) (q : Rat) :
      it ∈ db.inventory_items → inv ∈ db.inventories →
      inv.id = it.inventory_id → inv.status = InvStatus.in_progress →
      UIStep db (.count it.id q) (handleUpdateCount db it.id q)

/-- Position of a status along the forward-only workflow. -/
def statusRank : InvStatus → Nat
  | .draft => 0
  | .in_progress => 1
  | .completed => 2

end Store

namespace Store

open Extract (ParsedItem ParsedInvoiceData)

/-- The observable data of a movement row apart from its generated id. -/
def mproj (m : StockMovement) : Nat × MType × Rat × Option Nat × Option RType :=
  (m.product_id, m.movement_type, m.quantity, m.reference_id, m.reference_type)

/-- Concrete parsed line item: 2 × "Laptop" at net 50. -/
def itemLaptop : ParsedItem :=
  { name := "Laptop", quantity := 2, unit := "szt", percentage := 23
    net_price := 50, gross_price := 123/2, total_net := 100, total_gross := 123 }

/-- Concrete parsed invoice holding only `itemLaptop`. -/
def parsedLaptop : ParsedInvoiceData :=
  { invoiceNumber := "FV/2024/001", date := "2024-01-15", vendor := "ABC"
    items := [itemLaptop], totalNet := 100, totalGross := 123 }

/-- Concrete parsed line item: 5 × "Widget" at net 10. -/
def itemWidget : ParsedItem :=
  { name := "Widget", quantity := 5, unit := "szt", percentage := 23
    net_price := 10, gross_price := 123/10, total_net := 50, total_gross := 1230/20 }

/-- Concrete parsed invoice holding only `itemWidget`. -/
def parsedWidget : ParsedInvoiceData :=
  { invoiceNumber := "FV/2024/002", date := "2024-01-16", vendor := "XYZ"
    items := [itemWidget], totalNet := 50, totalGross := 1230/20 }

/-- Concrete parsed line item: 4 × "Gadget" at net 7. -/
def itemGadget : ParsedItem :=
  { name := "Gadget", quantity := 4, unit := "kg", percentage := 23
    net_price := 7, gross_price := 861/100, total_net := 28, total_gross := 861/25 }

/-- Concrete parsed invoice holding only `itemGadget`. -/
def parsedGadget : ParsedInvoiceData :=
  { invoiceNumber := "FV/2024/003", date := "2024-01-17", vendor := "QRS"
    items := [itemGadget], totalNet := 28, totalGross := 861/25 }

/-- Concrete product row with stock 10. -/
def exProduct : Product :=
  { id := 1, name := "Widget", unit := "szt", current_stock := 10
    min_stock_level := 0, last_purchase_price := some 5 }

/-- Concrete inventory in progress. -/
def exInventory : InventoryRow :=
  { id := 2, name := "Inwentaryzacja", status := InvStatus.in_progress, completed_at := none }

/-- Concrete inventory item: expected 10, counted 7. -/
def exInvItem : InventoryItemRow :=
  { id := 3, inventory_id := 2, product_id := 1, expected_quantity := 10
    counted_quantity := some 7, notes := "" }

/-- Concrete store for the inventory-completion and sale scenarios. -/
def exDB : DB :=
  { emptyDB with nextId := 4, products := [exProduct]
                 inventories := [exInventory], inventory_items := [exInvItem] }

/-- Concrete sale request: 5 units of product 1 at unit price 2. -/
def exSale : CreateSaleData :=
  { sale_number := "SP/2024/1", date := "2024-02-02", customer := "Klient"
    items := [{ product_id := 1, quantity := 5, unit_price := 2 }] }

/-- The movement row `handleCreateSale exDB exSale` writes (id 6 is the
third id drawn from `exDB`'s counter). -/
def exSaleMovement : StockMovement :=
  { id := 6, product_id := 1, movement_type := MType.sale, quantity := -5
    reference_id := some 4, reference_type := some RType.sale_item
    notes := "Sprzedaż SP/2024/1" }

/-- Concrete store with one draft inventory, for the workflow witness. -/
def exDraftInventory : InventoryRow :=
  { id := 5, name := "Szkic", status := InvStatus.draft, completed_at := none }

/-- Store holding `exDraftInventory`. -/
def exDraftDB : DB :=
  { emptyDB with nextId := 6, inventories := [exDraftInventory] }

/-- Concrete movement rows for the raw-ledger scenario. -/
def exMov1 : StockMovement :=
  { id := 10, product_id := 1, movement_type := MType.purchase, quantity := 5
    reference_id := none, reference_type := some RType.manual, notes := "" }

/-- A second concrete movement row. -/
def exMov2 : StockMovement :=
  { id := 11, product_id := 1, movement_type := MType.adjustment, quantity := -2
    reference_id := none, reference_type := some RType.manual, notes := "" }

/-- A store satisfying the ledger invariant (one product, empty ledger). -/
def exLedgerDB : DB :=
  { emptyDB with nextId := 20
                 products := [{ id := 1, name := "Widget", unit := "szt", current_stock := 0
                                min_stock_level := 0, last_purchase_price := none }] }

/-- A concrete ledger workout: insert, update, insert, delete. -/
def exLedgerOps : List LedgerOp :=
  [LedgerOp.insert exMov1, LedgerOp.update 10 3, LedgerOp.insert exMov2, LedgerOp.delete 10]

end Store

namespace Extract

/-- The first item extracted from the dual-match line
`"A 1 szt 2 3% 4 5 6"` (via the six-group pattern). -/
def exItemA : ParsedItem :=
  { name := "A", quantity := 1, unit := "szt", percentage := 3
    net_price := 2, gross_price := 4, total_net := 2, total_gross := 4 }

end Extract

/-! Claim theorems. -/

set_option maxRecDepth 40000

/-- C8: heuristic date normalization treats the token as year-first when
its first group has 4 digits and day-first otherwise, and validates by
round-tripping through the calendar-date constructor: `"15.01.2024"`
normalizes to `"2024-01-15"` (day-first), `"2024.01.15"` normalizes to
`"2024-01-15"` (year-first), and the impossible calendar date
`"31.02.2024"` is rejected and replaced by the ambient current date. -/
theorem c8_formatDateToISO_roundtrip :
    (∀ today : String, Extract.formatDateToISO today "15.01.2024" = "2024-01-15") ∧
    (∀ today : String, Extract.formatDateToISO today "2024.01.15" = "2024-01-15") ∧
    (∀ today : String, Extract.formatDateToISO today "31.02.2024" = today) :=
  ⟨fun _ => rfl, fun _ => rfl, fun _ => rfl⟩

/-- C2 counterexample: the parsing subsystem's actually-taken fallback,
`AIInvoiceParser.fallbackParsing`, returns an invoice whose items sum to
`total_net` 100 and `total_gross` 123 while its `totalNet` and `totalGross`
are hard-coded to 0 — off by far more than the 0.01 tolerance. -/
theorem c2_ai_fallback_totals_mismatch :
    ¬ (|Extract.sumTotalNet (Extract.aiFallbackParsing "UNKNOWN" "2024-01-15" "UNKNOWN VENDOR").items -
         (Extract.aiFallbackParsing "UNKNOWN" "2024-01-15" "UNKNOWN VENDOR").totalNet| ≤ 1/100 ∧
       |Extract.sumTotalGross (Extract.aiFallbackParsing "UNKNOWN" "2024-01-15" "UNKNOWN VENDOR").items -
         (Extract.aiFallbackParsing "UNKNOWN" "2024-01-15" "UNKNOWN VENDOR").totalGross| ≤ 1/100) := by
  with_unfolding_all decide

/-- C2 amended: the totals invariant holds (exactly, hence within 0.01) for
the invoices produced by `InvoicePDFParser.parsePDF`'s own heuristic
fallback branch, whose totals are computed as the sums of the item totals;
the AI parser's internal fallback instead returns `totalNet = totalGross = 0`
regardless of the header fields while its fixed placeholder item sums to
100 net / 123 gross. -/
theorem c2_totals_by_path :
    (∀ n d v text,
      (Extract.pdfParserFallback n d v text).totalNet =
        Extract.sumTotalNet (Extract.pdfParserFallback n d v text).items ∧
      (Extract.pdfParserFallback n d v text).totalGross =
        Extract.sumTotalGross (Extract.pdfParserFallback n d v text).items) ∧
    (∀ n d v,
      (Extract.aiFallbackParsing n d v).totalNet = 0 ∧
      (Extract.aiFallbackParsing n d v).totalGross = 0 ∧
      Extract.sumTotalNet (Extract.aiFallbackParsing n d v).items = 100 ∧
      Extract.sumTotalGross (Extract.aiFallbackParsing n d v).items = 123) :=
  ⟨fun _ _ _ _ => ⟨rfl, rfl⟩,
   fun _ _ _ => ⟨rfl, rfl, by with_unfolding_all rfl, by with_unfolding_all rfl⟩⟩

/-- C7 counterexample: the single-line text `"A 1 szt 2 3% 4 5 6"` matches
*both* regex shapes (the inner pattern loop has no `break`), so this one
line yields two extracted items, refuting "at most one item per line". -/
theorem c7_double_match_line :
    (Extract.extractItems "A 1 szt 2 3% 4 5 6").length = 2 ∧
    (Extract.extractItems "A 1 szt 2 3% 4 5 6").map (fun it => it.name) =
      ["A", "A 1 szt 2 3%"] := by
  with_unfolding_all decide

/-- C4: during invoice confirmation the purchase movement is written with
`reference_id` set to the *invoice's* id (here 0), which is not any
`invoice_items` id (the only item row has id 1), so the
`update_product_price_from_purchase` trigger's scalar subquery finds no row
and overwrites the product's `last_purchase_price` with NULL instead of the
line's net price 50. -/
theorem c4_purchase_price_reference_mismatch :
    ((Store.handleConfirmInvoice Store.emptyDB Store.parsedLaptop).products.map
        (fun p => (p.name, p.last_purchase_price)) = [("Laptop", none)]) ∧
    ((Store.handleConfirmInvoice Store.emptyDB Store.parsedLaptop).stock_movements.map
        (fun m => (m.movement_type, m.reference_type, m.reference_id)) =
      [(Store.MType.purchase, some Store.RType.invoice_item, some 0)]) ∧
    ((Store.handleConfirmInvoice Store.emptyDB Store.parsedLaptop).invoice_items.map
        (fun ii => (ii.id, ii.net_price)) = [(1, 50)]) ∧
    ¬ ((Store.handleConfirmInvoice Store.emptyDB Store.parsedLaptop).products.map
        (fun p => p.last_purchase_price) = [some 50]) := by
  with_unfolding_all decide

/-- C5: confirming the one-line invoice `parsedWidget` (quantity 5) into an
empty store and then deleting the invoice removes the invoice and its
items, but the purchase movement stays in the ledger and the product's
`current_stock` remains 5 — it does not return to its pre-confirmation
value 0 (`stock_movements.reference_id` has no foreign key, so no cascade
reaches the ledger and no reversal happens). -/
theorem c5_delete_does_not_reverse :
    ((Store.confirmDeleteInvoice
        (Store.handleConfirmInvoice Store.emptyDB Store.parsedWidget) 0).invoices = []) ∧
    ((Store.confirmDeleteInvoice
        (Store.handleConfirmInvoice Store.emptyDB Store.parsedWidget) 0).invoice_items = []) ∧
    ((Store.confirmDeleteInvoice
        (Store.handleConfirmInvoice Store.emptyDB Store.parsedWidget) 0).stock_movements.map
          (fun m => (m.movement_type, m.quantity)) = [(Store.MType.purchase, 5)]) ∧
    ((Store.confirmDeleteInvoice
        (Store.handleConfirmInvoice Store.emptyDB Store.parsedWidget) 0).products.map
          (fun p => (p.name, p.current_stock)) = [("Widget", 5)]) ∧
    Store.emptyDB.products = [] := by
  with_unfolding_all decide

namespace Store

/-- Batch insertion into `stock_movements` appends exactly the given rows
(each row's triggers only touch `products`). -/
theorem foldl_insert_stock_movements :
    ∀ (ms : List StockMovement) (acc : DB),
      (ms.foldl insertStockMovement acc).stock_movements = acc.stock_movements ++ ms := by
  intro ms
  induction ms with
  | nil => intro acc; simp
  | cons m rest ih =>
    intro acc
    simp only [List.foldl_cons, ih, insertStockMovement, List.append_assoc,
      List.singleton_append]

/-- Batch insertion into `stock_movements` leaves `sale_items` unchanged. -/
theorem foldl_insert_sale_items :
    ∀ (ms : List StockMovement) (acc : DB),
      (ms.foldl insertStockMovement acc).sale_items = acc.sale_items := by
  intro ms
  induction ms with
  | nil => intro acc; rfl
  | cons m rest ih => intro acc; simp only [List.foldl_cons, ih]; rfl

/-- Mapping an id-independent projection over id-assigned rows is a plain
map over the inputs. -/
theorem map_withIds {α β γ : Type} (mk : Nat → α → β) (g : β → γ) (h : α → γ)
    (hg : ∀ i a, g (mk i a) = h a) :
    ∀ (n : Nat) (xs : List α), (withIds mk n xs).map g = xs.map h := by
  intro n xs
  induction xs generalizing n with
  | nil => rfl
  | cons x rest ih => simp [withIds, hg, ih]

/-- Every id-assigned row comes from an input element. -/
theorem mem_withIds {α β : Type} (mk : Nat → α → β) :
    ∀ (n : Nat) (xs : List α) (b : β),
      b ∈ withIds mk n xs → ∃ i, ∃ a ∈ xs, b = mk i a := by
  intro n xs
  induction xs generalizing n with
  | nil => intro b h; cases h
  | cons x rest ih =>
    intro b h
    cases h with
    | head => exact ⟨n, x, List.mem_cons_self _ _, rfl⟩
    | tail _ h2 =>
      obtain ⟨i, a, ha, rfl⟩ := ih (n + 1) b h2
      exact ⟨i, a, List.mem_cons_of_mem _ ha, rfl⟩

end Store

/-- C9: `handleCreateSale` writes exactly one `sale` movement per requested
sale line, whose quantity is the negation of the line's quantity, while the
stored `sale_items` rows keep the user-facing (positive) quantities — so
the sign is inverted exactly once, at ledger-write time; under positive
user-facing quantities every newly written ledger row is negative. -/
theorem c9_sale_movement_sign (db : Store.DB) (sd : Store.CreateSaleData) :
    ((Store.handleCreateSale db sd).stock_movements.map Store.mproj =
      db.stock_movements.map Store.mproj ++
        sd.items.map (fun it =>
          (it.product_id, Store.MType.sale, -it.quantity, some (Store.genId db).1,
            some Store.RType.sale_item))) ∧
    ((Store.handleCreateSale db sd).sale_items.map (fun si => (si.product_id, si.quantity)) =
      db.sale_items.map (fun si => (si.product_id, si.quantity)) ++
        sd.items.map (fun it => (it.product_id, it.quantity))) ∧
    ((∀ it ∈ sd.items, 0 < it.quantity) →
      ∀ m ∈ (Store.handleCreateSale db sd).stock_movements,
        m ∉ db.stock_movements → m.quantity < 0) := by
  refine ⟨?_, ?_, ?_⟩
  · simp only [Store.handleCreateSale, Store.foldl_insert_stock_movements, List.map_append]
    rw [Store.map_withIds _ _
        (fun si => (si.product_id, Store.MType.sale, -si.quantity, some si.sale_id,
          some Store.RType.sale_item)) (fun _ _ => rfl),
      Store.map_withIds _ _
        (fun it => (it.product_id, Store.MType.sale, -it.quantity, some (Store.genId db).1,
          some Store.RType.sale_item)) (fun _ _ => rfl)]
    rfl
  · simp only [Store.handleCreateSale, Store.foldl_insert_sale_items, List.map_append]
    rw [Store.map_withIds _ _ (fun it => (it.product_id, it.quantity)) (fun _ _ => rfl)]
    rfl
  · intro hpos m hm hnot
    simp only [Store.handleCreateSale, Store.foldl_insert_stock_movements,
      List.mem_append] at hm
    rcases hm with hm | hm
    · exact absurd hm hnot
    · obtain ⟨i, si, hsi, rfl⟩ := Store.mem_withIds _ _ _ _ hm
      obtain ⟨j, it, hit, rfl⟩ := Store.mem_withIds _ _ _ _ hsi
      have := hpos _ hit
      simpa using neg_neg_of_pos this

/-- C9 witness: the concrete sale of 5 units produces the ledger row with
quantity −5. -/
theorem c9_sale_movement_sign_witness : Store.exSaleMovement.quantity < 0 :=
  (c9_sale_movement_sign Store.exDB Store.exSale).2.2
    (by with_unfolding_all decide) Store.exSaleMovement
    (by with_unfolding_all decide) (by with_unfolding_all decide)

/-- C3: completing an in-progress inventory emits exactly one
`inventory`-typed stock movement per inventory item of that inventory whose
`counted_quantity` is not null and whose difference (counted − expected) is
nonzero, with `quantity` equal to the difference and `reference_id` equal
to the inventory's id; never-counted items yield no movement.  On the
concrete store with expected 10 / counted 7, one movement of quantity −3 is
written and the product's stock drops from 10 to 7. -/
theorem c3_inventory_completion_movements :
    (∀ (db : Store.DB) (inv : Store.InventoryRow) (now : String),
      inv ∈ db.inventories → inv.status = Store.InvStatus.in_progress →
      (Store.handleCompleteInventory db inv.id now).stock_movements.map Store.mproj =
        db.stock_movements.map Store.mproj ++
          (db.inventory_items.filter (fun it =>
              decide (it.inventory_id = inv.id) && it.counted_quantity.isSome &&
                !(decide (Store.diffVal it = 0)))).map
            (fun it => (it.product_id, Store.MType.inventory, Store.diffVal it,
              some inv.id, some Store.RType.inventory))) ∧
    ((Store.handleCompleteInventory Store.exDB 2 "2024-03-01").stock_movements.map Store.mproj =
        [(1, Store.MType.inventory, -3, some 2, some Store.RType.inventory)] ∧
      (Store.handleCompleteInventory Store.exDB 2 "2024-03-01").products.map
        (fun p => p.current_stock) = [7] ∧
      Store.exDB.products.map (fun p => p.current_stock) = [10]) := by
  constructor
  · intro db inv now _ _
    simp only [Store.handleCompleteInventory, Store.foldl_insert_stock_movements,
      List.map_append]
    rw [Store.map_withIds _ _
        (fun it => (it.product_id, Store.MType.inventory, Store.diffVal it,
          some inv.id, some Store.RType.inventory)) (fun _ _ => rfl)]
    show db.stock_movements.map Store.mproj ++ _ = _
    congr 1
    rw [List.filter_filter]
    apply congrArg
    apply List.filter_congr
    intro it _
    cases hc : it.counted_quantity <;>
      simp [Store.diffOf, hc, Bool.and_assoc, Bool.and_comm]
  · refine ⟨?_, ?_, ?_⟩ <;> with_unfolding_all decide

/-- C3 witness: the general characterization applied to the concrete store
`exDB` and its in-progress inventory. -/
theorem c3_inventory_completion_movements_witness :
    (Store.handleCompleteInventory Store.exDB Store.exInventory.id "2024-03-01").stock_movements.map
        Store.mproj =
      Store.exDB.stock_movements.map Store.mproj ++
        (Store.exDB.inventory_items.filter (fun it =>
            decide (it.inventory_id = Store.exInventory.id) && it.counted_quantity.isSome &&
              !(decide (Store.diffVal it = 0)))).map
          (fun it => (it.product_id, Store.MType.inventory, Store.diffVal it,
            some Store.exInventory.id, some Store.RType.inventory)) :=
  c3_inventory_completion_movements.1 Store.exDB Store.exInventory "2024-03-01"
    (by with_unfolding_all decide) rfl

/-- Batch insertion into `stock_movements` leaves `inventories` unchanged. -/
theorem Store.foldl_insert_inventories :
    ∀ (ms : List Store.StockMovement) (acc : Store.DB),
      (ms.foldl Store.insertStockMovement acc).inventories = acc.inventories := by
  intro ms
  induction ms with
  | nil => intro acc; rfl
  | cons m rest ih => intro acc; simp only [List.foldl_cons, ih]; rfl

/-- C6: the inventory workflow is forward-only.  Under the UI's action
availability (start rendered only on `draft`, complete only on
`in_progress`, the count editor only inside an `in_progress` inventory):
(1) every dispatchable action moves every inventory's status forward or
leaves it unchanged (given distinct inventory ids, as the store's primary
key guarantees); (2) a count action can fire only when the item's inventory
is `in_progress` — recording a count on a `draft` or `completed` inventory
is rejected; (3) a complete action can fire only from `in_progress` —
completing a `draft` inventory is rejected. -/
theorem c6_forward_only_workflow :
    (∀ (db : Store.DB) (a : Store.UIAction) (db' : Store.DB),
      (db.inventories.map (fun i => i.id)).Nodup → Store.UIStep db a db' →
      List.Forall₂ (fun i j => i.id = j.id ∧ Store.statusRank i.status ≤ Store.statusRank j.status)
        db.inventories db'.inventories) ∧
    (∀ (db : Store.DB) (itemId : Nat) (q : Rat) (db' : Store.DB),
      Store.UIStep db (Store.UIAction.count itemId q) db' →
      ∃ it ∈ db.inventory_items, it.id = itemId ∧
        ∃ inv ∈ db.inventories, inv.id = it.inventory_id ∧
          inv.status = Store.InvStatus.in_progress) ∧
    (∀ (db : Store.DB) (invId : Nat) (now : String) (db' : Store.DB),
      Store.UIStep db (Store.UIAction.complete invId now) db' →
      ∃ inv ∈ db.inventories, inv.id = invId ∧
        inv.status = Store.InvStatus.in_progress) := by
  refine ⟨?_, ?_, ?_⟩
  · intro db a db' hnd hstep
    cases hstep with
    | start inv hmem hdraft =>
      show List.Forall₂ _ db.inventories (db.inventories.map _)
      rw [List.forall₂_map_right_iff]
      refine List.forall₂_same.2 (fun x hx => ?_)
      by_cases hid : x.id = inv.id
      · have hx_eq : x = inv := List.inj_on_of_nodup_map hnd hx hmem hid
        subst hx_eq
        simp [hid, hdraft, Store.statusRank]
      · simp [hid]
    | complete inv now2 hmem hprog =>
      have hinvs : (Store.handleCompleteInventory db inv.id now2).inventories =
          db.inventories.map (fun i =>
            if i.id = inv.id then
              { i with status := Store.InvStatus.completed, completed_at := some now2 }
            else i) := by
        simp only [Store.handleCompleteInventory, Store.foldl_insert_inventories]
      rw [hinvs, List.forall₂_map_right_iff]
      refine List.forall₂_same.2 (fun x hx => ?_)
      by_cases hid : x.id = inv.id
      · rw [if_pos hid]
        exact ⟨rfl, by cases x.status <;> simp [Store.statusRank]⟩
      · simp [hid]
    | count it inv q2 hit hinv heq hprog =>
      show List.Forall₂ _ db.inventories db.inventories
      exact List.forall₂_same.2 (fun x _ => ⟨rfl, le_refl _⟩)
  · intro db itemId q db' hstep
    cases hstep with
    | count it inv q2 hit hinv heq hprog =>
      exact ⟨it, hit, rfl, inv, hinv, heq, hprog⟩
  · intro db invId now db' hstep
    cases hstep with
    | complete inv now2 hmem hprog => exact ⟨inv, hmem, rfl, hprog⟩

/-- C6 witness: starting the concrete draft inventory is a dispatchable
step and it only moves statuses forward. -/
theorem c6_forward_only_workflow_witness :
    List.Forall₂ (fun i j => i.id = j.id ∧ Store.statusRank i.status ≤ Store.statusRank j.status)
      Store.exDraftDB.inventories
      (Store.handleStartInventory Store.exDraftDB Store.exDraftInventory.id).inventories :=
  c6_forward_only_workflow.1 Store.exDraftDB _ _ (by with_unfolding_all decide)
    (Store.UIStep.start Store.exDraftDB Store.exDraftInventory
      (by with_unfolding_all decide) rfl)

namespace Extract

/-- Membership in an accumulate-append fold comes from the accumulator or
from one of the per-element lists. -/
theorem mem_foldl_append {α β : Type} (f : α → List β) :
    ∀ (xs : List α) (acc : List β) (b : β),
      b ∈ xs.foldl (fun a x => a ++ f x) acc → b ∈ acc ∨ ∃ x ∈ xs, b ∈ f x := by
  intro xs
  induction xs with
  | nil => intro acc b h; exact Or.inl h
  | cons x rest ih =>
    intro acc b h
    rcases ih (acc ++ f x) b h with h2 | ⟨y, hy, hb⟩
    · rcases List.mem_append.1 h2 with h3 | h3
      · exact Or.inl h3
      · exact Or.inr ⟨x, List.mem_cons_self _ _, h3⟩
    · exact Or.inr ⟨y, List.mem_cons_of_mem _ hy, hb⟩

/-- Every item a line contributes is built from some match's groups. -/
theorem mem_lineItems {line : String} {it : ParsedItem} :
    it ∈ lineItems line → ∃ gs, it = buildItem gs := by
  intro h
  unfold lineItems itemShapes at h
  simp only [List.foldl_cons, List.foldl_nil] at h
  cases h1 : Rx.jsMatchGroups itemShape1 line <;>
    cases h2 : Rx.jsMatchGroups itemShape2 line <;>
      simp [h1, h2] at h
  · next gs2 => exact ⟨gs2, h⟩
  · next gs1 => exact ⟨gs1, h⟩
  · next gs1 gs2 =>
    rcases h with h | h
    · exact ⟨gs1, h⟩
    · exact ⟨gs2, h⟩

/-- A line contributes at most one item per pattern, so at most two. -/
theorem lineItems_length_le_two (line : String) : (lineItems line).length ≤ 2 := by
  unfold lineItems itemShapes
  simp only [List.foldl_cons, List.foldl_nil]
  cases h1 : Rx.jsMatchGroups itemShape1 line <;>
    cases h2 : Rx.jsMatchGroups itemShape2 line <;> simp [h1, h2]

end Extract

/-- C7 amended: the two regex shapes are tried in source order and *every*
matching shape appends one item (the loop has no first-match cut), so a
line yields at most two items — not at most one; each produced item,
including the never-matched placeholder, satisfies
`total_net = quantity × net_price` and `total_gross = quantity × gross_price`. -/
theorem c7_pattern_cascade :
    (∀ (text : String), ∀ it ∈ Extract.extractItems text,
      it.total_net = it.quantity * it.net_price ∧
      it.total_gross = it.quantity * it.gross_price) ∧
    (∀ line : String, (Extract.lineItems line).length ≤ 2) := by
  constructor
  · intro text it hit
    simp only [Extract.extractItems] at hit
    split at hit
    · rcases List.mem_singleton.1 hit with rfl
      constructor <;> with_unfolding_all decide
    · rcases Extract.mem_foldl_append _ _ _ _ hit with h | ⟨l, _, hb⟩
      · cases h
      · rcases Extract.mem_lineItems hb with ⟨gs, rfl⟩
        exact ⟨rfl, rfl⟩
  · exact Extract.lineItems_length_le_two

/-- C7 witness: the first item extracted from the dual-match line satisfies
the per-item total equations. -/
theorem c7_pattern_cascade_witness :
    Extract.exItemA.total_net = Extract.exItemA.quantity * Extract.exItemA.net_price ∧
    Extract.exItemA.total_gross = Extract.exItemA.quantity * Extract.exItemA.gross_price :=
  c7_pattern_cascade.1 "A 1 szt 2 3% 4 5 6" Extract.exItemA (by with_unfolding_all decide)

namespace Store

/-- A per-product conditional update leaves rows with other ids alone. -/
theorem map_update_id_of_ne (ps : List Product) (pid : Nat) (f : Product → Product)
    (h : ∀ p ∈ ps, ¬ p.id = pid) :
    ps.map (fun p => if p.id = pid then f p else p) = ps := by
  induction ps with
  | nil => rfl
  | cons p rest ih =>
    have hp := h p (List.mem_cons_self _ _)
    simp only [List.map_cons, if_neg hp]
    rw [ih (fun q hq => h q (List.mem_cons_of_mem _ hq))]

end Store

/-- C10: confirming an invoice with a single line for a name absent from
the product table creates that product with stock 0, min level 0, the
line's unit, and `last_purchase_price` initialised to the line's net price
(the `newProductRow` record inserted before the purchase movement), and
after the purchase movement is written the new product's `current_stock`
equals exactly the line's quantity.  (The price trigger then overwrites
`last_purchase_price` with NULL, the C4 defect; the claim's stock
consequence is unaffected.)  The freshness hypotheses say the store's
existing ids are below the id counter, which the uuid generator
guarantees. -/
theorem c10_unseen_product_creation (db : Store.DB) (d : Extract.ParsedInvoiceData)
    (it0 : Extract.ParsedItem)
    (hitems : d.items = [it0])
    (hname : ∀ p ∈ db.products, ¬ p.name = it0.name)
    (hpid : ∀ p ∈ db.products, p.id < db.nextId)
    (hiid : ∀ ii ∈ db.invoice_items, ii.id < db.nextId) :
    ∃ pid,
      (Store.handleConfirmInvoice db d).products =
        db.products ++ [{ Store.newProductRow pid it0 with
          current_stock := it0.quantity, last_purchase_price := none }] ∧
      (Store.newProductRow pid it0).current_stock = 0 ∧
      (Store.newProductRow pid it0).last_purchase_price = some it0.net_price ∧
      (Store.newProductRow pid it0).unit = it0.unit ∧
      (Store.newProductRow pid it0).min_stock_level = 0 ∧
      (Store.newProductRow pid it0).name = it0.name := by
  refine ⟨db.nextId + 2, ?_, rfl, rfl, rfl, rfl, rfl⟩
  have hfind : db.products.find? (fun p => p.name = it0.name) = none :=
    List.find?_eq_none.2 (fun p hp => by simpa using hname p hp)
  simp only [Store.handleConfirmInvoice, hitems, Store.genId, Store.withIds,
    List.foldl_cons, List.foldl_nil, Store.confirmItemStep, hfind,
    Store.insertStockMovement, Store.priceTriggerApply, Store.stockTriggerInsert,
    List.length_cons, List.length_nil]
  rw [if_pos (show _ ∧ _ by constructor <;> simp)]
  have hfind2 :
      (db.invoice_items ++
        [({ id := db.nextId + 1, invoice_id := db.nextId, name := it0.name
            quantity := it0.quantity, unit := it0.unit, percentage := it0.percentage
            net_price := it0.net_price, gross_price := it0.gross_price
            total_net := it0.total_net, total_gross := it0.total_gross } :
              Store.InvoiceItemRow)]).find?
        (fun ii => some ii.id = some (db.nextId)) = none := by
    refine List.find?_eq_none.2 (fun ii hii => ?_)
    rcases List.mem_append.1 hii with hii | hii
    · have := hiid ii hii
      simp only [Option.some.injEq, decide_eq_true_eq]
      omega
    · rcases List.mem_singleton.1 hii with rfl
      simp only [Option.some.injEq, decide_eq_true_eq]
      omega
  rw [List.map_append, List.map_append,
    Store.map_update_id_of_ne db.products (db.nextId + 2) _
      (fun p hp => by have := hpid p hp; omega),
    Store.map_update_id_of_ne _ (db.nextId + 2) _
      (fun p hp => by have := hpid p hp; omega)]
  have hiid3 : ∀ x ∈ db.invoice_items, ¬ x.id = db.nextId := fun x hx => by
    have := hiid x hx; omega
  simp [Store.newProductRow, hiid3]
  exact hiid3

/-- C10 witness: confirming the one-line invoice `parsedGadget` (4 × kg of
the unseen "Gadget" at net 7) into the empty store. -/
theorem c10_unseen_product_creation_witness :
    ∃ pid,
      (Store.handleConfirmInvoice Store.emptyDB Store.parsedGadget).products =
        Store.emptyDB.products ++ [{ Store.newProductRow pid Store.itemGadget with
          current_stock := Store.itemGadget.quantity, last_purchase_price := none }] ∧
      (Store.newProductRow pid Store.itemGadget).current_stock = 0 ∧
      (Store.newProductRow pid Store.itemGadget).last_purchase_price =
        some Store.itemGadget.net_price ∧
      (Store.newProductRow pid Store.itemGadget).unit = Store.itemGadget.unit ∧
      (Store.newProductRow pid Store.itemGadget).min_stock_level = 0 ∧
      (Store.newProductRow pid Store.itemGadget).name = Store.itemGadget.name :=
  c10_unseen_product_creation Store.emptyDB Store.parsedGadget Store.itemGadget rfl
    (by simp [Store.emptyDB]) (by simp [Store.emptyDB]) (by simp [Store.emptyDB])

namespace Store

/-- Unfolding `sumQtyFor` over a cons cell. -/
theorem sumQtyFor_cons (m : StockMovement) (ms : List StockMovement) (pid : Nat) :
    sumQtyFor (m :: ms) pid =
      (if m.product_id = pid then m.quantity else 0) + sumQtyFor ms pid := by
  by_cases h : m.product_id = pid <;> simp [sumQtyFor, List.filter_cons, h]

/-- `sumQtyFor` distributes over append. -/
theorem sumQtyFor_append (ms ns : List StockMovement) (pid : Nat) :
    sumQtyFor (ms ++ ns) pid = sumQtyFor ms pid + sumQtyFor ns pid := by
  induction ms with
  | nil => simp [sumQtyFor]
  | cons m ms ih => simp only [List.cons_append, sumQtyFor_cons, ih]; ring

/-- Splitting `sumQtyFor` along a deletion predicate. -/
theorem sumQtyFor_filter_split (i pid : Nat) (ms : List StockMovement) :
    sumQtyFor ms pid =
      sumQtyFor (ms.filter (fun m => m.id = i)) pid +
        sumQtyFor (ms.filter (fun m => ¬ m.id = i)) pid := by
  induction ms with
  | nil => simp [sumQtyFor]
  | cons m ms ih =>
    by_cases h : m.id = i <;>
      simp [List.filter_cons, h, sumQtyFor_cons, ih] <;> ring

/-- Effect of a quantity update on `sumQtyFor`. -/
theorem sumQtyFor_map_update (i : Nat) (q : Rat) (pid : Nat) (ms : List StockMovement) :
    sumQtyFor (ms.map (fun m => if m.id = i then { m with quantity := q } else m)) pid =
      sumQtyFor ms pid +
        (((ms.filter (fun m => m.id = i)).filter (fun m => m.product_id = pid)).map
          (fun m => q - m.quantity)).sum := by
  induction ms with
  | nil => simp [sumQtyFor]
  | cons m ms ih =>
    by_cases h : m.id = i <;> by_cases h2 : m.product_id = pid <;>
      simp [List.filter_cons, h, h2, sumQtyFor_cons, ih] <;> ring

/-- Every product row after an insert trigger run comes from a row of the
previous table with the same id and the trigger's stock delta applied
(the price trigger touches neither id nor stock). -/
theorem mem_products_insert {db : DB} {m : StockMovement} {p' : Product} :
    p' ∈ (insertStockMovement db m).products →
    ∃ p ∈ db.products, p'.id = p.id ∧
      p'.current_stock = p.current_stock +
        (if m.product_id = p.id then m.quantity else 0) := by
  intro h
  unfold insertStockMovement stockTriggerInsert at h
  simp only [List.mem_map] at h
  obtain ⟨p1, hp1, rfl⟩ := h
  have hproj : ∃ p ∈ db.products, p1.id = p.id ∧ p1.current_stock = p.current_stock := by
    unfold priceTriggerApply at hp1
    split at hp1
    · simp only [List.mem_map] at hp1
      obtain ⟨p, hp, rfl⟩ := hp1
      refine ⟨p, hp, ?_, ?_⟩ <;> split <;> rfl
    · exact ⟨p1, hp1, rfl, rfl⟩
  obtain ⟨p, hp, hid, hcs⟩ := hproj
  refine ⟨p, hp, ?_, ?_⟩
  · split <;> exact hid
  · by_cases hm : p1.id = m.product_id
    · have hmp : m.product_id = p.id := by omega
      rw [if_pos hm, if_pos hmp]
      show p1.current_stock + m.quantity = _
      rw [hcs]
    · have hmp : ¬ m.product_id = p.id := by omega
      rw [if_neg hm, if_neg hmp, hcs, add_zero]

/-- The per-row DELETE trigger folded over the removed rows subtracts, for
each product, the summed quantity of the removed rows of that product. -/
theorem foldl_delete_eq (rows : List StockMovement) :
    ∀ ps : List Product,
      rows.foldl (fun a m => stockTriggerDelete m a) ps =
        ps.map (fun p => { p with current_stock := p.current_stock - sumQtyFor rows p.id }) := by
  induction rows with
  | nil =>
    intro ps
    have h : ∀ a ∈ ps,
        ({ a with current_stock := a.current_stock - sumQtyFor [] a.id } : Product) = id a := by
      intro a _
      simp [sumQtyFor]
    rw [List.foldl_nil, List.map_congr_left h, List.map_id]
  | cons m rows ih =>
    intro ps
    rw [List.foldl_cons, ih (stockTriggerDelete m ps)]
    unfold stockTriggerDelete
    rw [List.map_map]
    apply List.map_congr_left
    intro p _
    by_cases hm : p.id = m.product_id
    · have hmp : m.product_id = p.id := by omega
      simp only [Function.comp_apply, if_pos hm, sumQtyFor_cons, if_pos hmp]
      simp [Product.mk.injEq]
      ring
    · have hmp : ¬ m.product_id = p.id := by omega
      simp only [Function.comp_apply, if_neg hm, sumQtyFor_cons, if_neg hmp]
      simp

/-- The per-row UPDATE trigger folded over the matched rows adds, for each
product, the summed quantity delta of the matched rows of that product. -/
theorem foldl_update_eq (q : Rat) (rows : List StockMovement) :
    ∀ ps : List Product,
      rows.foldl (fun a m => stockTriggerUpdate m { m with quantity := q } a) ps =
        ps.map (fun p => { p with current_stock := p.current_stock +
          ((rows.filter (fun m => m.product_id = p.id)).map (fun m => q - m.quantity)).sum }) := by
  induction rows with
  | nil =>
    intro ps
    have h : ∀ a ∈ ps,
        (fun p => ({ p with current_stock := p.current_stock +
          ((([] : List StockMovement).filter (fun m => m.product_id = p.id)).map
            (fun m => q - m.quantity)).sum } : Product)) a = id a := by
      intro a _
      simp
    rw [List.foldl_nil, List.map_congr_left h, List.map_id]
  | cons m rows ih =>
    intro ps
    rw [List.foldl_cons, ih (stockTriggerUpdate m { m with quantity := q } ps)]
    unfold stockTriggerUpdate
    rw [List.map_map]
    apply List.map_congr_left
    intro p _
    by_cases hm : p.id = m.product_id
    · have hmp : m.product_id = p.id := by omega
      simp only [Function.comp_apply, if_pos hm, List.filter_cons, hmp]
      simp [Product.mk.injEq]
      ring
    · have hmp : ¬ m.product_id = p.id := by omega
      simp only [Function.comp_apply, if_neg hm]
      simp [List.filter_cons, hmp]

end Store

namespace Store

/-- Inserting a movement preserves the ledger invariant: the trigger adds
exactly the inserted quantity to exactly the movement's product. -/
theorem ledgerInv_insert {db : DB} {m : StockMovement} (h : LedgerInv db) :
    LedgerInv (insertStockMovement db m) := by
  intro p' hp'
  obtain ⟨p, hp, hid, hcs⟩ := mem_products_insert hp'
  have hms : (insertStockMovement db m).stock_movements = db.stock_movements ++ [m] := rfl
  rw [hms, hid, hcs, h p hp, sumQtyFor_append, sumQtyFor_cons]
  simp [sumQtyFor]

/-- Deleting the movements with a given id preserves the ledger invariant:
each removed row's DELETE trigger subtracts its quantity. -/
theorem ledgerInv_delete {db : DB} {i : Nat} (h : LedgerInv db) :
    LedgerInv (deleteStockMovement db i) := by
  have hprod : (deleteStockMovement db i).products =
      db.products.map (fun p => { p with current_stock := (p.current_stock -
        sumQtyFor (db.stock_movements.filter (fun m => m.id = i)) p.id) }) :=
    foldl_delete_eq _ _
  have hms : (deleteStockMovement db i).stock_movements =
      db.stock_movements.filter (fun m => ¬ m.id = i) := rfl
  intro p' hp'
  rw [hprod] at hp'
  simp only [List.mem_map] at hp'
  obtain ⟨p, hp, rfl⟩ := hp'
  rw [hms]
  show p.current_stock - sumQtyFor (db.stock_movements.filter (fun m => m.id = i)) p.id =
    sumQtyFor (db.stock_movements.filter (fun m => ¬ m.id = i)) p.id
  have hsplit := sumQtyFor_filter_split i p.id db.stock_movements
  have hinv := h p hp
  linarith

/-- Updating the quantity of the movements with a given id preserves the
ledger invariant: each matched row's UPDATE trigger applies its delta. -/
theorem ledgerInv_update {db : DB} {i : Nat} {q : Rat} (h : LedgerInv db) :
    LedgerInv (updateStockMovementQty db i q) := by
  have hprod : (updateStockMovementQty db i q).products =
      db.products.map (fun p => { p with current_stock := (p.current_stock +
        (((db.stock_movements.filter (fun m => m.id = i)).filter
          (fun m => m.product_id = p.id)).map (fun m => q - m.quantity)).sum) }) :=
    foldl_update_eq _ _ _
  have hms : (updateStockMovementQty db i q).stock_movements =
      db.stock_movements.map (fun m => if m.id = i then { m with quantity := q } else m) := rfl
  intro p' hp'
  rw [hprod] at hp'
  simp only [List.mem_map] at hp'
  obtain ⟨p, hp, rfl⟩ := hp'
  rw [hms]
  show p.current_stock +
      (((db.stock_movements.filter (fun m => m.id = i)).filter
        (fun m => m.product_id = p.id)).map (fun m => q - m.quantity)).sum =
    sumQtyFor (db.stock_movements.map
      (fun m => if m.id = i then { m with quantity := q } else m)) p.id
  rw [sumQtyFor_map_update, h p hp]

end Store

/-- C1: the ledger invariant.  Starting from any store in which every
product's `current_stock` equals the signed sum of its ledger movements,
any sequence of raw movement inserts, quantity updates, and deletes — each
running the `update_product_stock` trigger (insert of q adds q, delete of q
subtracts q, update from q_old to q_new adds q_new − q_old) — re-establishes
that every product's `current_stock` equals the signed sum of the
quantities of the movements currently in the ledger for that product. -/
theorem c1_ledger_invariant :
    ∀ (ops : List Store.LedgerOp) (db : Store.DB),
      Store.LedgerInv db → Store.LedgerInv (Store.applyLedgerOps db ops) := by
  intro ops
  induction ops with
  | nil => intro db h; exact h
  | cons op rest ih =>
    intro db h
    have h1 : Store.LedgerInv (Store.applyLedgerOp db op) := by
      cases op with
      | insert m => exact Store.ledgerInv_insert h
      | delete i => exact Store.ledgerInv_delete h
      | update i q => exact Store.ledgerInv_update h
    exact ih _ h1

/-- C1 witness: the invariant holds after running the concrete op sequence
(insert 5, update it to 3, insert −2, delete the first movement) on the
concrete consistent store. -/
theorem c1_ledger_invariant_witness :
    Store.LedgerInv (Store.applyLedgerOps Store.exLedgerDB Store.exLedgerOps) :=
  c1_ledger_invariant Store.exLedgerOps Store.exLedgerDB (by with_unfolding_all decide)
